import Mathlib

/-!
Verification of the gospecify template/script processing and
project-materialization pipeline (jsburckhardt/spec-kit, src/gospecify).

The Go source is shallowly embedded: strings are modelled as `List Char`,
`strings.ReplaceAll` as `replaceAll`, `strings.Split`/`strings.Join` on
newlines as `splitLines`/`joinLines`, and the fallible operations return
`Option`/`Except`.  Placeholder maps iterated by Go in unspecified order are
modelled as explicit pair lists; the canonical lists follow the source
listing order, and order-sensitivity is studied by varying the list.
-/

namespace GoSpecify

/-- Substring test, the embedding of Go `strings.Contains`
(true when `p` occurs contiguously inside `s`). -/
def occurs (p : List Char) : List Char → Bool
  | [] => p.isEmpty
  | c :: cs => p.isPrefixOf (c :: cs) || occurs p cs

/-- Worker for `replaceAll`: scans the text left to right; a positive `skip`
count consumes characters belonging to a match that was already replaced.
Structurally recursive on the text. -/
def raGo (p r : List Char) : Nat → List Char → List Char
  | _, [] => []
  | Nat.succ k, _ :: cs => raGo p r k cs
  | 0, c :: cs =>
    if !p.isEmpty && p.isPrefixOf (c :: cs) then
      r ++ raGo p r (p.length - 1) cs
    else
      c :: raGo p r 0 cs

/-- Embedding of Go `strings.ReplaceAll s p r` (with nonempty pattern `p`,
the only case the program uses): replaces each non-overlapping occurrence of
`p` in `s` by `r`, scanning left to right. -/
def replaceAll (p r s : List Char) : List Char :=
  raGo p r 0 s

theorem raGo_zero_cons (p r : List Char) (c : Char) (cs : List Char) :
    raGo p r 0 (c :: cs) =
      if !p.isEmpty && p.isPrefixOf (c :: cs) then
        r ++ raGo p r (p.length - 1) cs
      else
        c :: raGo p r 0 cs := rfl

theorem raGo_skip (p r : List Char) :
    ∀ (s : List Char) (k : Nat), raGo p r k s = raGo p r 0 (s.drop k) := by
  intro s
  induction s with
  | nil => intro k; cases k <;> simp [raGo]
  | cons c cs ih =>
    intro k
    cases k with
    | zero => simp
    | succ k => simpa [raGo] using ih k

theorem isPrefixOf_append_drop :
    ∀ (p s : List Char), p.isPrefixOf s = true → p ++ s.drop p.length = s := by
  intro p
  induction p with
  | nil => intro s _; simp
  | cons a as ih =>
    intro s h
    cases s with
    | nil => simp [List.isPrefixOf] at h
    | cons b bs =>
      simp only [List.isPrefixOf, Bool.and_eq_true, beq_iff_eq] at h
      obtain ⟨hab, hpre⟩ := h
      subst hab
      simpa [List.drop] using ih bs hpre

/-- Replacing a pattern by itself is the identity
(`strings.ReplaceAll(s, p, p) == s`). -/
theorem replaceAll_self (p : List Char) (s : List Char) : replaceAll p p s = s := by
  generalize hn : s.length = n
  induction n using Nat.strong_induction_on generalizing s with
  | _ n ih =>
    cases s with
    | nil => simp [replaceAll, raGo]
    | cons c cs =>
      have hcs : cs.length + 1 = n := by simpa using hn
      by_cases hb : (!p.isEmpty && p.isPrefixOf (c :: cs)) = true
      · have hcond := hb
        simp only [Bool.and_eq_true, Bool.not_eq_true'] at hcond
        obtain ⟨hne, hpre⟩ := hcond
        cases p with
        | nil => simp [List.isEmpty] at hne
        | cons a as =>
          have hlen : (a :: as).length - 1 = as.length := by simp
          have hstep : replaceAll (a :: as) (a :: as) (c :: cs)
              = (a :: as) ++ raGo (a :: as) (a :: as) as.length cs := by
            unfold replaceAll
            rw [raGo_zero_cons, if_pos hb, hlen]
          rw [hstep, raGo_skip]
          have hlt : (cs.drop as.length).length < n := by
            have hd : (cs.drop as.length).length = cs.length - as.length :=
              List.length_drop _ _
            omega
          have ihdrop := ih _ hlt (cs.drop as.length) rfl
          rw [show raGo (a :: as) (a :: as) 0 (cs.drop as.length)
                = replaceAll (a :: as) (a :: as) (cs.drop as.length) from rfl, ihdrop]
          have := isPrefixOf_append_drop (a :: as) (c :: cs) hpre
          simpa [List.drop] using this
      · have hstep : replaceAll p p (c :: cs) = c :: replaceAll p p cs := by
          unfold replaceAll
          rw [raGo_zero_cons, if_neg (by simp [hb])]
        have hlt : cs.length < n := by omega
        rw [hstep, ih _ hlt cs rfl]

/-- If the pattern does not occur in the text, replacement is the identity. -/
theorem replaceAll_of_not_occurs (p r : List Char) :
    ∀ (s : List Char), occurs p s = false → replaceAll p r s = s := by
  intro s
  induction s with
  | nil => intro _; simp [replaceAll, raGo]
  | cons c cs ih =>
    intro h
    simp only [occurs, Bool.or_eq_false_iff] at h
    obtain ⟨hpre, hrest⟩ := h
    have hb : (!p.isEmpty && p.isPrefixOf (c :: cs)) = false := by
      simp [hpre]
    unfold replaceAll
    rw [raGo_zero_cons, if_neg (by simp [hb])]
    have := ih hrest
    unfold replaceAll at this
    rw [this]

/-- Swapping two replacements that share the same replacement text `r`,
where `r` equals one of the two patterns, never changes the result. -/
theorem replaceAll_comm_of_target (t1 t2 r s : List Char)
    (h : r = t1 ∨ r = t2) :
    replaceAll t2 r (replaceAll t1 r s) = replaceAll t1 r (replaceAll t2 r s) := by
  cases h with
  | inl h =>
    rw [h, replaceAll_self t1 s, replaceAll_self t1 (replaceAll t2 t1 s)]
  | inr h =>
    rw [h, replaceAll_self t2 (replaceAll t1 t2 s), replaceAll_self t2 s]

/-- Sequential application of a list of (pattern, replacement) pairs,
the embedding of the Go loop `for placeholder, replacement := range m`. -/
def applyPairs (ps : List (List Char × List Char)) (s : List Char) : List Char :=
  ps.foldl (fun acc pr => replaceAll pr.1 pr.2 acc) s

/-! ## Data model (internal/config and pkg/errors) -/

/-- Embedding of `errors.Error` from pkg/errors/types.go (code and message;
the wrapped cause is folded into the message). -/
structure GoError where
  code : List Char
  msg : List Char
deriving DecidableEq

def validationErrorCode : List Char := "VALIDATION_ERROR".toList

def gitErrorCode : List Char := "GIT_ERROR".toList

def isErr {ε α : Type} : Except ε α → Bool
  | .error _ => true
  | .ok _ => false

/-- Embedding of `config.AIAssistant` (internal/config/agents.go). -/
structure AIAssistant where
  key : List Char
  name : List Char
  directory : List Char
  format : List Char
  cliTool : List Char
  argFormat : List Char
  isIDEBased : Bool
  website : List Char
deriving DecidableEq

def fmtMarkdown : List Char := "md".toList

def fmtTOML : List Char := "toml".toList

def fmtPrompt : List Char := "prompt.md".toList

def copilot : AIAssistant :=
  ⟨"copilot".toList, "GitHub Copilot".toList, ".github/prompts/".toList,
    fmtPrompt, [], "$ARGUMENTS".toList, true,
    "https://github.com/features/copilot".toList⟩

def claude : AIAssistant :=
  ⟨"claude".toList, "Claude Code".toList, ".claude/commands/".toList,
    fmtMarkdown, "claude".toList, "$ARGUMENTS".toList, false,
    "https://docs.anthropic.com/en/docs/claude-code/setup".toList⟩

def gemini : AIAssistant :=
  ⟨"gemini".toList, "Gemini CLI".toList, ".gemini/commands/".toList,
    fmtTOML, "gemini".toList, "\x7b\x7bargs\x7d\x7d".toList, false,
    "https://github.com/google-gemini/gemini-cli".toList⟩

def cursor : AIAssistant :=
  ⟨"cursor".toList, "Cursor".toList, ".cursor/commands/".toList,
    fmtMarkdown, "cursor-agent".toList, "$ARGUMENTS".toList, false,
    "https://cursor.sh/".toList⟩

def qwen : AIAssistant :=
  ⟨"qwen".toList, "Qwen Code".toList, ".qwen/commands/".toList,
    fmtTOML, "qwen".toList, "\x7b\x7bargs\x7d\x7d".toList, false,
    "https://github.com/QwenLM/Qwen2.5-Coder".toList⟩

def opencode : AIAssistant :=
  ⟨"opencode".toList, "opencode".toList, ".opencode/command/".toList,
    fmtMarkdown, "opencode".toList, "$ARGUMENTS".toList, false,
    "https://opencode.ai".toList⟩

def codex : AIAssistant :=
  ⟨"codex".toList, "Codex CLI".toList, ".codex/".toList,
    fmtMarkdown, "codex".toList, "$ARGUMENTS".toList, false,
    "https://github.com/microsoft/codex-cli".toList⟩

def windsurf : AIAssistant :=
  ⟨"windsurf".toList, "Windsurf".toList, ".windsurf/workflows/".toList,
    fmtMarkdown, [], "$ARGUMENTS".toList, true,
    "https://codeium.com/windsurf".toList⟩

def kilocode : AIAssistant :=
  ⟨"kilocode".toList, "Kilo Code".toList, ".kilocode/".toList,
    fmtMarkdown, "kilocode".toList, "$ARGUMENTS".toList, false,
    "https://kilocode.com/".toList⟩

def auggie : AIAssistant :=
  ⟨"auggie".toList, "Auggie CLI".toList, ".augment/".toList,
    fmtMarkdown, "auggie".toList, "$ARGUMENTS".toList, false,
    "https://augmentcode.com/".toList⟩

def roo : AIAssistant :=
  ⟨"roo".toList, "Roo Code".toList, ".roo/".toList,
    fmtMarkdown, "roo".toList, "$ARGUMENTS".toList, false,
    "https://roocode.com/".toList⟩

/-- The fixed assistant registry `config.AIAssistants`. -/
def AIAssistants : List (List Char × AIAssistant) :=
  [("copilot".toList, copilot), ("claude".toList, claude),
   ("gemini".toList, gemini), ("cursor".toList, cursor),
   ("qwen".toList, qwen), ("opencode".toList, opencode),
   ("codex".toList, codex), ("windsurf".toList, windsurf),
   ("kilocode".toList, kilocode), ("auggie".toList, auggie),
   ("roo".toList, roo)]

/-- `config.ScriptTypeBash = "sh"` (internal/config/constants.go). -/
def scriptTypeBash : List Char := "sh".toList

/-- `config.ScriptTypePowerShell = "ps"` (internal/config/constants.go). -/
def scriptTypePowerShell : List Char := "ps".toList

/-- Embedding of `config.ScriptType`. -/
structure ScriptType where
  key : List Char
  name : List Char
  extension : List Char
  platform : List Char
deriving DecidableEq

/-- The fixed script-type registry `config.ScriptTypes`. -/
def ScriptTypes : List (List Char × ScriptType) :=
  [(scriptTypeBash,
      ⟨scriptTypeBash, "POSIX Shell (bash/zsh)".toList, ".sh".toList, "unix".toList⟩),
   (scriptTypePowerShell,
      ⟨scriptTypePowerShell, "PowerShell".toList, ".ps1".toList, "windows".toList⟩)]

/-! ## Placeholder tokens -/

def agentTok : List Char := "__AGENT__".toList

def argumentsTok : List Char := "$ARGUMENTS".toList

def argsTok : List Char := "\x7b\x7bargs\x7d\x7d".toList

def scriptTok : List Char := "\x7bSCRIPT\x7d".toList

def promptOpenTok : List Char := "prompt = \"\"\"".toList

def tripleQuoteTok : List Char := "\"\"\"".toList

/-! ## Template processor (internal/templates, `Processor`) -/

/-- The replacement map of `Processor.applyReplacements`, in source listing
order.  Go iterates this map in unspecified order; order variations are
modelled by permuting this list. -/
def replacementPairs (a : AIAssistant) : List (List Char × List Char) :=
  [(agentTok, a.key),
   (argumentsTok, a.argFormat),
   (argsTok, a.argFormat),
   (scriptTok, [])]

/-- Embedding of `Processor.applyReplacements` with the map iterated in
source listing order. -/
def applyReplacements (a : AIAssistant) (content : List Char) : List Char :=
  applyPairs (replacementPairs a) content

/-- Embedding of `Processor.getScriptName`. -/
def getScriptName (scriptType : List Char) : List Char :=
  if scriptType = scriptTypeBash then "setup.sh".toList
  else if scriptType = scriptTypePowerShell then "setup.ps1".toList
  else "setup.sh".toList

/-- Embedding of `Processor.getScriptPath`. -/
def getScriptPath (scriptType : List Char) : List Char :=
  ".specify/scripts/".toList ++ getScriptName scriptType

/-- Worker of `splitLines`: returns the first line and the remaining lines. -/
def splitLinesAux : List Char → List Char × List (List Char)
  | [] => ([], [])
  | c :: cs =>
    let r := splitLinesAux cs
    if c = '\n' then ([], r.1 :: r.2) else (c :: r.1, r.2)

/-- Embedding of Go `strings.Split(s, "\n")` (the result is never empty). -/
def splitLines (s : List Char) : List (List Char) :=
  (splitLinesAux s).1 :: (splitLinesAux s).2

/-- Embedding of Go `strings.Join(lines, "\n")`. -/
def joinLines (ls : List (List Char)) : List Char :=
  List.intercalate ['\n'] ls

/-- Embedding of `Processor.processMarkdownTemplate`: resolves the SCRIPT
placeholder per line where present. -/
def processMarkdownTemplate (scriptType content : List Char) : List Char :=
  joinLines ((splitLines content).map (fun line =>
    if occurs scriptTok line then
      replaceAll scriptTok (getScriptPath scriptType) line
    else line))

/-- The line loop of `Processor.processTOMLTemplate`: tracks the
triple-quoted prompt block and applies the argument replacements to lines
while inside it. -/
def tomlLines (argFormat : List Char) : Bool → List (List Char) → List (List Char)
  | _, [] => []
  | inPrompt, line :: rest =>
    let inP :=
      if occurs promptOpenTok line then true
      else if inPrompt && occurs tripleQuoteTok line then false
      else inPrompt
    let line2 :=
      if inP then replaceAll argsTok argFormat (replaceAll argumentsTok argFormat line)
      else line
    line2 :: tomlLines argFormat inP rest

/-- Embedding of `Processor.processTOMLTemplate`. -/
def processTOMLTemplate (argFormat content : List Char) : List Char :=
  joinLines (tomlLines argFormat false (splitLines content))

/-- Embedding of `Processor.processPromptTemplate`. -/
def processPromptTemplate (scriptType content : List Char) : List Char :=
  replaceAll scriptTok (getScriptPath scriptType) content

/-- Embedding of `Processor.ProcessTemplate` applied to already-fetched
template content, with the replacement map iterated in the order `ord`
(Go map iteration order is unspecified). -/
def processTemplateContentWith (ord : List (List Char × List Char))
    (a : AIAssistant) (scriptType content : List Char) : List Char :=
  let c := applyPairs ord content
  if a.format = fmtMarkdown then processMarkdownTemplate scriptType c
  else if a.format = fmtTOML then processTOMLTemplate a.argFormat c
  else if a.format = fmtPrompt then processPromptTemplate scriptType c
  else c

/-- `Processor.ProcessTemplate` on template content, with the replacement
map in source listing order. -/
def processTemplateContent (a : AIAssistant) (scriptType content : List Char) : List Char :=
  processTemplateContentWith (replacementPairs a) a scriptType content

/-- Association lookup in an asset store
(`EmbeddedAssets.GetTemplate` / `GetScript`). -/
def findAsset : List (List Char × List Char) → List Char → Option (List Char)
  | [], _ => none
  | (k, v) :: rest, nm => if k = nm then some v else findAsset rest nm

/-- Embedding of `Processor.ProcessTemplate`: fetches the template from the
store and processes it; a missing template is an AssetNotFound failure,
modelled as `none`. -/
def processTemplate (a : AIAssistant) (scriptType : List Char)
    (store : List (List Char × List Char)) (templateName : List Char) :
    Option (List Char) :=
  match findAsset store templateName with
  | none => none
  | some t => some (processTemplateContent a scriptType t)

/-! ## Script generator (internal/scripts, `Generator`) -/

/-- The extension switch inside `Generator.getScriptPath`. -/
def generatorExtension (scriptType : List Char) : List Char :=
  if scriptType = scriptTypeBash then ".sh".toList
  else if scriptType = scriptTypePowerShell then ".ps1".toList
  else ".sh".toList

/-- Embedding of `Generator.getScriptPath`: the embedded asset key is
`scriptType + "/" + scriptName + extension`. -/
def generatorScriptPath (scriptType scriptName : List Char) : List Char :=
  scriptType ++ "/".toList ++ scriptName ++ generatorExtension scriptType

/-- Embedding of `Generator.getScriptReference`. -/
def getScriptReference (scriptType : List Char) : List Char :=
  if scriptType = scriptTypeBash then "./setup.sh".toList
  else if scriptType = scriptTypePowerShell then ".\\setup.ps1".toList
  else "./setup.sh".toList

/-- The replacement map of `Generator.applyReplacements`, in source listing
order. -/
def generatorReplacementPairs (a : AIAssistant) (scriptType : List Char) :
    List (List Char × List Char) :=
  [(agentTok, a.key), (scriptTok, getScriptReference scriptType)]

/-- Embedding of `Generator.applyReplacements`. -/
def generatorApplyReplacements (a : AIAssistant) (scriptType content : List Char) :
    List Char :=
  applyPairs (generatorReplacementPairs a scriptType) content

/-- Embedding of `Generator.GenerateScript`. -/
def generateScript (a : AIAssistant) (scriptType : List Char)
    (store : List (List Char × List Char)) (scriptName : List Char) :
    Option (List Char) :=
  match findAsset store (generatorScriptPath scriptType scriptName) with
  | none => none
  | some c => some (generatorApplyReplacements a scriptType c)

/-! ## init command (cmd/init.go) -/

def commandsNS : List Char := "commands/".toList

/-- The command-copy naming of `processTemplates` (cmd/init.go, the loop
copying templates under "commands/" into the assistant directory): the
output filename is the template name with the "commands/" namespace
stripped, with no format-dependent transformation. -/
def commandCopyName (templateName : List Char) : Option (List Char) :=
  if commandsNS.isPrefixOf templateName then
    some (templateName.drop commandsNS.length)
  else none

/-- Strip a trailing ".md" if present (helper for the specified naming). -/
def stripMdExt (nm : List Char) : List Char :=
  if ".md".toList.isSuffixOf nm then nm.take (nm.length - 3) else nm

/-- Modelled from the spec: the format-dependent command filename derivation
(spec section 4.4 and the repository fix note
.copilot/modifications-fix-copilot-filenames.md, whose
`generateCommandFileName` helper is absent from the source): PromptMarkdown
yields base + ".prompt.md", TOML yields base + ".toml", Markdown yields
base + ".md". -/
def specCommandFileName (commandName fileFormat : List Char) : List Char :=
  let base := stripMdExt commandName
  if fileFormat = fmtPrompt then base ++ ".prompt.md".toList
  else if fileFormat = fmtTOML then base ++ ".toml".toList
  else base ++ ".md".toList

/-- Embedding of the `Args` validator of `NewInitCmd` (cmd/init.go):
rejects a positional name combined with --here, and the absence of both.
The validator is pure; it performs no file-system operation. -/
def validateInitArgs (here : Bool) (nargs : Nat) : Except (List Char) Unit :=
  if here = true ∧ 0 < nargs then
    .error "cannot specify both project name and --here flag".toList
  else if here = false ∧ nargs = 0 then
    .error "must specify either a project name or use --here flag".toList
  else .ok ()

/-- Embedding of `prepareProjectDirectory` (cmd/init.go).  File-system
facts are abstracted as: the number of entries in the current directory
(in-place mode) and whether the target path already exists (new-directory
mode); file-system primitives themselves are assumed not to fail. -/
def prepareProjectDirectory (here force : Bool) (cwdEntries : Nat)
    (targetExists : Bool) : Except GoError Unit :=
  if here then
    if 0 < cwdEntries ∧ force = false then
      .error ⟨validationErrorCode,
        "directory is not empty (use --force to override)".toList⟩
    else .ok ()
  else
    if targetExists then
      .error ⟨validationErrorCode, "Directory already exists".toList⟩
    else .ok ()

/-! ## Version-control step (cmd/init.go, `initializeGit` and the git step
of `runInit`) -/

/-- Abstract git environment: whether a `.git` marker exists at the target
root, and whether each git subprocess would succeed. -/
structure GitEnv where
  repoExists : Bool
  initOk : Bool
  addOk : Bool
  commitOk : Bool
deriving DecidableEq

inductive GitOp where
  | init
  | add
  | commit
deriving DecidableEq

/-- Embedding of `initializeGit` (cmd/init.go): returns the outcome and the
list of git operations performed. -/
def initGit (noGit : Bool) (env : GitEnv) : Except GoError Unit × List GitOp :=
  if noGit then (.ok (), [])
  else if env.repoExists then (.ok (), [])
  else if env.initOk = false then
    (.error ⟨gitErrorCode, "failed to initialize git repository".toList⟩, [.init])
  else if env.addOk = false then
    (.error ⟨gitErrorCode, "failed to add files to git".toList⟩, [.init, .add])
  else if env.commitOk = false then
    (.error ⟨gitErrorCode, "failed to create initial commit".toList⟩,
      [.init, .add, .commit])
  else (.ok (), [.init, .add, .commit])

/-! ## Step tracker (internal/config/types.go) -/

inductive StepStatus where
  | pending
  | running
  | done
  | error
  | skipped
deriving DecidableEq

/-- Embedding of `config.Step` restricted to one step (status, detail and
the two timestamps; a zero Go `time.Time` is `none`). -/
structure TrackStep where
  status : StepStatus
  detail : List Char
  started : Option Nat
  ended : Option Nat
deriving DecidableEq

/-- A step as created by `StepTracker.Add`. -/
def initialStep : TrackStep := ⟨.pending, [], none, none⟩

/-- The effect of `StepTracker.update` on the addressed step: the status is
overwritten, the detail only when nonempty, `started` only on entering
Running with a zero start time, `ended` only on entering a terminal status
with a zero end time. -/
def updateStep (s : TrackStep) (newStatus : StepStatus) (detail : List Char)
    (now : Nat) : TrackStep :=
  { status := newStatus
    detail := if detail ≠ [] then detail else s.detail
    started := if newStatus = .running ∧ s.started = none then some now else s.started
    ended :=
      if (newStatus = .done ∨ newStatus = .error ∨ newStatus = .skipped)
          ∧ s.ended = none then
        some now
      else s.ended }

/-- The four public mutators `Start` / `Complete` / `Error` / `Skip`, each
carrying the detail argument and the `time.Now()` observed during the call. -/
inductive TrackOp where
  | start (detail : List Char) (now : Nat)
  | complete (detail : List Char) (now : Nat)
  | fail (detail : List Char) (now : Nat)
  | skip (detail : List Char) (now : Nat)
deriving DecidableEq

def applyTrackOp (s : TrackStep) : TrackOp → TrackStep
  | .start d n => updateStep s .running d n
  | .complete d n => updateStep s .done d n
  | .fail d n => updateStep s .error d n
  | .skip d n => updateStep s .skipped d n

def runTrackOps (s : TrackStep) (ops : List TrackOp) : TrackStep :=
  ops.foldl applyTrackOp s

def isTerminalOp : TrackOp → Bool
  | .start _ _ => false
  | .complete _ _ => true
  | .fail _ _ => true
  | .skip _ _ => true

def opTime : TrackOp → Nat
  | .start _ n => n
  | .complete _ n => n
  | .fail _ n => n
  | .skip _ n => n

/-- The git step reporting of `runInit` (cmd/init.go): on failure the step
is marked Error; on success it is marked Done, or Skipped when the caller
passed --no-git. -/
def gitStepStatus (noGit : Bool) (env : GitEnv) : StepStatus :=
  match (initGit noGit env).1 with
  | .error _ => .error
  | .ok _ => if noGit then .skipped else .done

/-! ## Claim theorems -/

/-- A TOML template (for the TOML assistant gemini) with one argument
placeholder in a comment line outside the prompt block and one inside it. -/
def c1template : List Char :=
  ("# note $ARGUMENTS\nprompt = \"\"\"\ndo $ARGUMENTS\n\"\"\"").toList

/-- Claim C1 (code divergence): for the TOML assistant gemini, processing
the template `c1template` rewrites the `$ARGUMENTS` occurrence on the
comment line outside the prompt block (the unscoped `applyReplacements`
pre-pass runs before `processTOMLTemplate`), so the first output line
differs from the first input line, contrary to the claim that text outside
the prompt block is left unchanged. -/
theorem claim1_code_divergence :
    processTemplateContent gemini scriptTypeBash c1template =
      ("# note \x7b\x7bargs\x7d\x7d\nprompt = \"\"\"\ndo \x7b\x7bargs\x7d\x7d\n\"\"\"").toList
    ∧ List.headD (splitLines c1template) [] = ("# note $ARGUMENTS").toList
    ∧ List.headD (splitLines (processTemplateContent gemini scriptTypeBash c1template)) []
        ≠ ("# note $ARGUMENTS").toList := by
  refine ⟨by decide, by decide, by decide⟩

/-- A Markdown template containing the SCRIPT placeholder. -/
def c2template : List Char := "Run \x7bSCRIPT\x7d now".toList

/-- Claim C2 (code divergence): for the Markdown assistant claude with the
posix script type, the SCRIPT placeholder in `c2template` is replaced by
the empty string (the `applyReplacements` pre-pass maps it to ""), so the
resolved path `.specify/scripts/setup.sh` appears nowhere in the output,
contrary to the claim. -/
theorem claim2_code_divergence :
    occurs scriptTok c2template = true
    ∧ processTemplateContent claude scriptTypeBash c2template = "Run  now".toList
    ∧ occurs (getScriptPath scriptTypeBash)
        (processTemplateContent claude scriptTypeBash c2template) = false := by
  refine ⟨by decide, by decide, by decide⟩

/-- Claim C3 (code divergence): the command-copy loop of `processTemplates`
writes the template `commands/specify.md` for the PromptMarkdown assistant
copilot under the unchanged name `specify.md`, not under the
format-dependent name `specify.prompt.md` required by the claim (and by the
repository fix note whose helper is absent from the source). -/
theorem claim3_code_divergence :
    copilot.format = fmtPrompt
    ∧ commandCopyName ("commands/specify.md").toList = some ("specify.md").toList
    ∧ specCommandFileName ("specify.md").toList copilot.format
        = ("specify.prompt.md").toList
    ∧ ("specify.md").toList ≠ ("specify.prompt.md").toList := by
  refine ⟨by decide, by decide, by decide, by decide⟩

/-- Claim C4 (code divergence): `Generator.getScriptPath` builds the asset
key from the short script-type key itself (`sh/...`, `ps/...`), so the
lookup directory for the posix script type is `sh`, not `bash`, and the
directory component of the key is exactly the short key. -/
theorem claim4_code_divergence :
    generatorScriptPath scriptTypeBash ("setup-plan").toList
        = ("sh/setup-plan.sh").toList
    ∧ generatorScriptPath scriptTypePowerShell ("setup-plan").toList
        = ("ps/setup-plan.ps1").toList
    ∧ List.takeWhile (fun c => c != '/')
        (generatorScriptPath scriptTypeBash ("setup-plan").toList) = scriptTypeBash
    ∧ ("bash").toList ≠ scriptTypeBash := by
  refine ⟨by decide, by decide, by decide, by decide⟩

/-- Claim C5: the mode-specific force asymmetry of
`prepareProjectDirectory`: in in-place mode a non-empty directory fails
with the directory-state (validation) error unless force is set, and an
empty directory succeeds without force; in new-directory mode an existing
target fails with the directory-state error for every value of force. -/
theorem claim5_force_asymmetry (force : Bool) (n : Nat) (targetExists : Bool) :
    (0 < n → prepareProjectDirectory true false n targetExists
        = .error ⟨validationErrorCode,
            "directory is not empty (use --force to override)".toList⟩)
    ∧ prepareProjectDirectory true true n targetExists = .ok ()
    ∧ prepareProjectDirectory true false 0 targetExists = .ok ()
    ∧ prepareProjectDirectory false force n true
        = .error ⟨validationErrorCode, "Directory already exists".toList⟩ := by
  refine ⟨fun h => ?_, ?_, ?_, ?_⟩ <;>
    simp [prepareProjectDirectory, *]

/-- Witness for claim C5 at a concrete non-empty in-place directory. -/
theorem claim5_witness :
    (0 < 3)
    ∧ prepareProjectDirectory true false 3 false
        = .error ⟨validationErrorCode,
            "directory is not empty (use --force to override)".toList⟩ :=
  ⟨by decide, (claim5_force_asymmetry false 3 false).1 (by decide)⟩

/-- Claim C8: the init command argument validator fails exactly when a
positional name is combined with --here or when neither is given; the
validator is a pure function of the flag and the argument count. -/
theorem claim8_arg_validation (here : Bool) (nargs : Nat) :
    isErr (validateInitArgs here nargs) = true
      ↔ ((here = true ∧ 0 < nargs) ∨ (here = false ∧ nargs = 0)) := by
  rcases Nat.eq_zero_or_pos nargs with h | h
  · cases here <;> simp [validateInitArgs, isErr, h]
  · have h2 : ¬ nargs = 0 := by omega
    cases here <;> simp [validateInitArgs, isErr, h, h2]

/-- A text on which removing the SCRIPT placeholder splices together a new
AGENT placeholder. -/
def c6text : List Char := "__AGE\x7bSCRIPT\x7dNT__".toList

/-- Claim C6 counterexample: placeholder substitution is not idempotent.
On `c6text`, the first application erases the SCRIPT placeholder and
thereby creates the text `__AGENT__`, which the second application rewrites
to the assistant key. -/
theorem claim6_counterexample :
    applyReplacements copilot (applyReplacements copilot c6text)
      ≠ applyReplacements copilot c6text := by
  decide

/-- Claim C6 amended: substitution is idempotent on every input whose
substituted output contains no leftover AGENT or SCRIPT placeholder, and
contains an argument placeholder only when it equals the argument-format
string of the profile (so replacing it is the identity). -/
theorem claim6_amended_idempotent (a : AIAssistant) (s : List Char)
    (h1 : occurs agentTok (applyReplacements a s) = false)
    (h2 : occurs scriptTok (applyReplacements a s) = false)
    (h3 : occurs argumentsTok (applyReplacements a s) = false
            ∨ a.argFormat = argumentsTok)
    (h4 : occurs argsTok (applyReplacements a s) = false
            ∨ a.argFormat = argsTok) :
    applyReplacements a (applyReplacements a s) = applyReplacements a s := by
  generalize ht : applyReplacements a s = t at h1 h2 h3 h4
  have e1 : replaceAll agentTok a.key t = t := replaceAll_of_not_occurs _ _ t h1
  have e2 : replaceAll argumentsTok a.argFormat t = t := by
    cases h3 with
    | inl h => exact replaceAll_of_not_occurs _ _ t h
    | inr h => rw [h]; exact replaceAll_self _ t
  have e3 : replaceAll argsTok a.argFormat t = t := by
    cases h4 with
    | inl h => exact replaceAll_of_not_occurs _ _ t h
    | inr h => rw [h]; exact replaceAll_self _ t
  have e4 : replaceAll scriptTok [] t = t := replaceAll_of_not_occurs _ _ t h2
  show applyPairs (replacementPairs a) t = t
  simp only [applyPairs, replacementPairs, List.foldl_cons, List.foldl_nil]
  rw [e1, e2, e3, e4]

/-- A text already in substituted form for the claude profile. -/
def c6w : List Char := "hello $ARGUMENTS world".toList

/-- Witness for the amended claim C6 at a concrete input. -/
theorem claim6_amended_witness :
    occurs agentTok (applyReplacements claude c6w) = false
    ∧ occurs scriptTok (applyReplacements claude c6w) = false
    ∧ claude.argFormat = argumentsTok
    ∧ occurs argsTok (applyReplacements claude c6w) = false
    ∧ applyReplacements claude (applyReplacements claude c6w)
        = applyReplacements claude c6w :=
  ⟨by decide, by decide, by decide, by decide,
    claim6_amended_idempotent claude c6w (by decide) (by decide)
      (Or.inr (by decide)) (Or.inl (by decide))⟩

/-- Claim C9: `initializeGit` succeeds without performing any git operation
exactly when the caller opted out or a repository marker already exists;
on opt-out the step is reported Skipped; every failure carries the
version-control (git) error code. -/
theorem claim9_git_step (noGit : Bool) (env : GitEnv) :
    (((initGit noGit env).1 = .ok () ∧ (initGit noGit env).2 = [])
        ↔ (noGit = true ∨ env.repoExists = true))
    ∧ (noGit = true → gitStepStatus noGit env = .skipped)
    ∧ (∀ e, (initGit noGit env).1 = .error e → e.code = gitErrorCode) := by
  obtain ⟨re, io, ao, co⟩ := env
  cases noGit <;> cases re <;> cases io <;> cases ao <;> cases co <;>
    simp [initGit, gitStepStatus]

/-- Witness for claim C9: with --no-git the step is Skipped, and a failing
`git init` yields the git error code. -/
theorem claim9_witness :
    gitStepStatus true ⟨false, true, true, true⟩ = StepStatus.skipped
    ∧ (GoError.mk gitErrorCode
        "failed to initialize git repository".toList).code = gitErrorCode :=
  ⟨(claim9_git_step true ⟨false, true, true, true⟩).2.1 rfl,
    (claim9_git_step false ⟨false, false, true, true⟩).2.2
      ⟨gitErrorCode, "failed to initialize git repository".toList⟩ (by rfl)⟩

/-- A template text on which the SCRIPT replacement splices together an
argument placeholder. -/
def c10content : List Char := "$ARGU\x7bSCRIPT\x7dMENTS".toList

/-- The replacement map of `Processor.applyReplacements` in a different
(equally possible) Go map iteration order: SCRIPT first. -/
def c10order2 : List (List Char × List Char) :=
  [(scriptTok, []), (agentTok, gemini.key),
   (argumentsTok, gemini.argFormat), (argsTok, gemini.argFormat)]

/-- Claim C10 counterexample: `ProcessTemplate` output is not independent
of the map iteration order of `applyReplacements`: for the gemini
assistant, the source listing order and the SCRIPT-first order (a
permutation of the same map) give different output bytes on `c10content`. -/
theorem claim10_counterexample :
    List.Perm (replacementPairs gemini) c10order2
    ∧ processTemplateContentWith (replacementPairs gemini) gemini
        scriptTypeBash c10content
      ≠ processTemplateContentWith c10order2 gemini scriptTypeBash c10content := by
  refine ⟨by decide, by decide⟩

/-- Claim C10 amended: the relative order of the two argument replacements
never matters: swapping the `$ARGUMENTS` and the `\x7b\x7bargs\x7d\x7d`
entries of the replacement sequence (both mapping to the assistant
argument-format string, itself one of the two tokens) leaves the output
unchanged, for every surrounding context and every input text. -/
theorem claim10_amended_swap (pre post : List (List Char × List Char))
    (r s : List Char) (h : r = argumentsTok ∨ r = argsTok) :
    applyPairs (pre ++ (argumentsTok, r) :: (argsTok, r) :: post) s
      = applyPairs (pre ++ (argsTok, r) :: (argumentsTok, r) :: post) s := by
  simp only [applyPairs, List.foldl_append, List.foldl_cons]
  rw [replaceAll_comm_of_target argumentsTok argsTok r _ h]

/-- Witness for the amended claim C10 at a concrete order and text. -/
theorem claim10_amended_witness :
    (argsTok = argumentsTok ∨ argsTok = argsTok)
    ∧ applyPairs [(agentTok, gemini.key), (argumentsTok, argsTok),
          (argsTok, argsTok), (scriptTok, [])] c10content
      = applyPairs [(agentTok, gemini.key), (argsTok, argsTok),
          (argumentsTok, argsTok), (scriptTok, [])] c10content :=
  ⟨Or.inr rfl,
    claim10_amended_swap [(agentTok, gemini.key)] [(scriptTok, [])]
      argsTok c10content (Or.inr rfl)⟩

theorem status_applyTrackOp (s : TrackStep) (op : TrackOp) :
    (applyTrackOp s op).status ≠ .pending := by
  cases op <;> simp [applyTrackOp, updateStep]

theorem runTrackOps_append (s : TrackStep) (ops1 ops2 : List TrackOp) :
    runTrackOps s (ops1 ++ ops2) = runTrackOps (runTrackOps s ops1) ops2 := by
  simp [runTrackOps, List.foldl_append]

theorem status_runTrackOps (s : TrackStep) :
    ∀ (ops : List TrackOp), ops ≠ [] → (runTrackOps s ops).status ≠ .pending := by
  intro ops
  induction ops generalizing s with
  | nil => intro h; exact absurd rfl h
  | cons op rest ih =>
    intro _
    cases rest with
    | nil => exact status_applyTrackOp s op
    | cons r rs =>
      have : runTrackOps s (op :: r :: rs) = runTrackOps (applyTrackOp s op) (r :: rs) := rfl
      rw [this]
      exact ih (applyTrackOp s op) (by simp)

theorem ended_applyTrackOp_some (s : TrackStep) (op : TrackOp) (t : Nat)
    (h : s.ended = some t) : (applyTrackOp s op).ended = some t := by
  cases op <;> simp [applyTrackOp, updateStep, h]

theorem ended_runTrackOps_some (s : TrackStep) (t : Nat) :
    ∀ (ops : List TrackOp), s.ended = some t →
      (runTrackOps s ops).ended = some t := by
  intro ops
  induction ops generalizing s with
  | nil => intro h; exact h
  | cons op rest ih =>
    intro h
    have : runTrackOps s (op :: rest) = runTrackOps (applyTrackOp s op) rest := rfl
    rw [this]
    exact ih (applyTrackOp s op) (ended_applyTrackOp_some s op t h)

theorem ended_applyTrackOp_nonterminal (s : TrackStep) (op : TrackOp)
    (h : isTerminalOp op = false) (he : s.ended = none) :
    (applyTrackOp s op).ended = none := by
  cases op <;> simp_all [applyTrackOp, updateStep, isTerminalOp]

theorem ended_runTrackOps_nonterminal (s : TrackStep) :
    ∀ (ops : List TrackOp), s.ended = none →
      (∀ o ∈ ops, isTerminalOp o = false) →
      (runTrackOps s ops).ended = none := by
  intro ops
  induction ops generalizing s with
  | nil => intro he _; exact he
  | cons op rest ih =>
    intro he h
    have : runTrackOps s (op :: rest) = runTrackOps (applyTrackOp s op) rest := rfl
    rw [this]
    refine ih (applyTrackOp s op) ?_ (fun o ho => h o (List.mem_cons_of_mem _ ho))
    exact ended_applyTrackOp_nonterminal s op (h op (List.mem_cons_self _ _)) he

theorem ended_applyTrackOp_terminal (s : TrackStep) (op : TrackOp)
    (h : isTerminalOp op = true) (he : s.ended = none) :
    (applyTrackOp s op).ended = some (opTime op) := by
  cases op <;> simp_all [applyTrackOp, updateStep, isTerminalOp, opTime]

/-- Claim C7: for every sequence of Start/Complete/Error/Skip operations
applied to a step, the status never returns to Pending after the first
operation; the end timestamp is set on the first operation carrying a
terminal status (its observed clock value) and is never overwritten by
later operations. -/
theorem claim7_tracker_monotone (ops : List TrackOp) :
    (ops ≠ [] → (runTrackOps initialStep ops).status ≠ .pending)
    ∧ (∀ pre op post, ops = pre ++ op :: post →
        (∀ o ∈ pre, isTerminalOp o = false) → isTerminalOp op = true →
        (runTrackOps initialStep ops).ended = some (opTime op))
    ∧ (∀ t more, (runTrackOps initialStep ops).ended = some t →
        (runTrackOps initialStep (ops ++ more)).ended = some t) := by
  refine ⟨status_runTrackOps initialStep ops, ?_, ?_⟩
  · intro pre op post hops hpre hop
    subst hops
    have hsplit : runTrackOps initialStep (pre ++ op :: post)
        = runTrackOps (applyTrackOp (runTrackOps initialStep pre) op) post := by
      rw [runTrackOps_append]
      rfl
    rw [hsplit]
    have hnone : (runTrackOps initialStep pre).ended = none :=
      ended_runTrackOps_nonterminal initialStep pre rfl hpre
    have hset := ended_applyTrackOp_terminal (runTrackOps initialStep pre) op hop hnone
    exact ended_runTrackOps_some _ _ post hset
  · intro t more h
    rw [runTrackOps_append]
    exact ended_runTrackOps_some _ _ more h

/-- Witness for claim C7 on the concrete sequence Start, Complete, Error:
the end timestamp is the one observed at the Complete operation and the
later Error operation does not overwrite it. -/
theorem claim7_witness :
    ([TrackOp.start [] 1, TrackOp.complete [] 2, TrackOp.fail [] 3]
        ≠ ([] : List TrackOp))
    ∧ (runTrackOps initialStep
        [TrackOp.start [] 1, TrackOp.complete [] 2, TrackOp.fail [] 3]).status
        ≠ StepStatus.pending
    ∧ (runTrackOps initialStep
        [TrackOp.start [] 1, TrackOp.complete [] 2, TrackOp.fail [] 3]).ended
        = some 2 :=
  ⟨by decide,
    (claim7_tracker_monotone _).1 (by decide),
    (claim7_tracker_monotone _).2.1 [TrackOp.start [] 1] (TrackOp.complete [] 2)
      [TrackOp.fail [] 3] rfl (by decide) (by decide)⟩

end GoSpecify
